import Mathlib

/-!
Verification of the one-step binomial option pricer `binomial_one_step`
from `OptionPricing.py`, embedded shallowly over the real numbers.
The Python function works on floats and raises `ValueError` with one of
four distinct messages; here it is modelled as a function into
`Except String ℝ` carrying those exact messages, with real arithmetic
standing in for floating point and `round2` modelling `round(x, 2)`.
-/

open Real

noncomputable section

/-- The up factor `u = exp(sigma * sqrt(T))` (OptionPricing.py line 28). -/
def upFactor (sigma T : ℝ) : ℝ := Real.exp (sigma * Real.sqrt T)

/-- The down factor `d = exp(-sigma * sqrt(T))` (OptionPricing.py line 29). -/
def downFactor (sigma T : ℝ) : ℝ := Real.exp (-(sigma * Real.sqrt T))

/-- The risk-neutral probability `p = (exp(r*T) - d) / (u - d)`
(OptionPricing.py line 47). -/
def riskNeutralProb (r T sigma : ℝ) : ℝ :=
  (Real.exp (r * T) - downFactor sigma T) / (upFactor sigma T - downFactor sigma T)

/-- The discount factor `exp(-r*T)` (OptionPricing.py line 53). -/
def discountFactor (r T : ℝ) : ℝ := Real.exp (-(r * T))

/-- Terminal payoff of the option (OptionPricing.py lines 39-44):
`max(S_terminal - K, 0)` for a call, `max(K - S_terminal, 0)` otherwise. -/
def payoff (option_type : String) (sTerminal K : ℝ) : ℝ :=
  if option_type = "call" then max (sTerminal - K) 0 else max (K - sTerminal) 0

/-- Rounding to two decimal places, modelling Python `round(x, 2)` in exact
real arithmetic. (Python breaks ties to even; no claim depends on the
tie-breaking rule, so Mathlib `round` is used.) -/
def round2 (x : ℝ) : ℝ := (round (100 * x) : ℤ) / 100

/-- Message of the `ValueError` raised on a bad option type
(OptionPricing.py line 23). -/
def invalidTypeMsg : String := "option_type must be \x27call\x27 or \x27put\x27"

/-- Message of the `ValueError` raised on a non-positive numeric input
(OptionPricing.py line 25). -/
def invalidNumMsg : String := "S, K, T, sigma must be positive"

/-- Message of the `ValueError` raised when `u == d`
(OptionPricing.py line 32). -/
def degenerateMsg : String := "u and d factors are equal; check parameters"

/-- Message of the `ValueError` raised when the risk-neutral probability
leaves `[0, 1]` (OptionPricing.py line 50). -/
def arbitrageMsg : String :=
  "No-arbitrage condition violated: p must be between 0 and 1"

/-- The one-step binomial pricer, a direct embedding of
`binomial_one_step` (OptionPricing.py lines 6-56).  A raised `ValueError`
becomes `Except.error` carrying the exact message string. -/
def binomial_one_step (S K T r sigma : ℝ) (option_type : String) :
    Except String ℝ :=
  if option_type ∉ ["call", "put"] then Except.error invalidTypeMsg
  else if S ≤ 0 ∨ K ≤ 0 ∨ T ≤ 0 ∨ sigma ≤ 0 then Except.error invalidNumMsg
  else if upFactor sigma T = downFactor sigma T then Except.error degenerateMsg
  else if riskNeutralProb r T sigma < 0 ∨ riskNeutralProb r T sigma > 1 then
    Except.error arbitrageMsg
  else
    Except.ok (round2 (discountFactor r T *
      (riskNeutralProb r T sigma * payoff option_type (S * upFactor sigma T) K +
        (1 - riskNeutralProb r T sigma) *
          payoff option_type (S * downFactor sigma T) K)))

/-- Calling the pricer with the option type omitted: the Python signature
(OptionPricing.py line 6) declares the default value `'call'` for
`option_type`. -/
def binomial_one_step_default (S K T r sigma : ℝ) : Except String ℝ :=
  binomial_one_step S K T r sigma "call"

/-- The option type passes the first validation gate
(`option_type in ['call', 'put']`, OptionPricing.py line 22). -/
def validType (option_type : String) : Prop := option_type ∈ ["call", "put"]

/-- Some numeric input is non-positive (the second gate,
OptionPricing.py line 24). -/
def nonposInput (S K T sigma : ℝ) : Prop := S ≤ 0 ∨ K ≤ 0 ∨ T ≤ 0 ∨ sigma ≤ 0

end

instance (t : String) : Decidable (validType t) := by
  unfold validType; infer_instance

lemma validType_iff (t : String) : validType t ↔ t = "call" ∨ t = "put" := by
  simp [validType]

lemma msgs_distinct :
    invalidTypeMsg ≠ invalidNumMsg ∧ invalidTypeMsg ≠ degenerateMsg ∧
    invalidTypeMsg ≠ arbitrageMsg ∧ invalidNumMsg ≠ degenerateMsg ∧
    invalidNumMsg ≠ arbitrageMsg ∧ degenerateMsg ≠ arbitrageMsg := by
  refine ⟨?_, ?_, ?_, ?_, ?_, ?_⟩ <;> decide

section Characterization

variable (S K T r sigma : ℝ) (t : String)

lemma bos_error_type_iff :
    binomial_one_step S K T r sigma t = Except.error invalidTypeMsg ↔
      ¬ validType t := by
  unfold binomial_one_step validType
  by_cases h1 : t ∉ ["call", "put"]
  · simp [h1]
  · rw [if_neg h1]
    push_neg at h1
    by_cases h2 : S ≤ 0 ∨ K ≤ 0 ∨ T ≤ 0 ∨ sigma ≤ 0
    · simpa [h2, h1] using msgs_distinct.1.symm
    · rw [if_neg h2]
      by_cases h3 : upFactor sigma T = downFactor sigma T
      · simpa [h3, h1] using msgs_distinct.2.1.symm
      · rw [if_neg h3]
        by_cases h4 : riskNeutralProb r T sigma < 0 ∨ riskNeutralProb r T sigma > 1
        · simpa [h4, h1] using msgs_distinct.2.2.1.symm
        · simp [h4, h1]

lemma bos_error_num_iff :
    binomial_one_step S K T r sigma t = Except.error invalidNumMsg ↔
      validType t ∧ nonposInput S K T sigma := by
  unfold binomial_one_step validType nonposInput
  by_cases h1 : t ∉ ["call", "put"]
  · simpa [h1] using msgs_distinct.1
  · rw [if_neg h1]
    push_neg at h1
    by_cases h2 : S ≤ 0 ∨ K ≤ 0 ∨ T ≤ 0 ∨ sigma ≤ 0
    · simp [h2, h1]
    · rw [if_neg h2]
      by_cases h3 : upFactor sigma T = downFactor sigma T
      · simpa [h3, h2] using msgs_distinct.2.2.2.1.symm
      · rw [if_neg h3]
        by_cases h4 : riskNeutralProb r T sigma < 0 ∨ riskNeutralProb r T sigma > 1
        · simpa [h4, h2] using msgs_distinct.2.2.2.2.1.symm
        · simp [h4, h2]

lemma bos_error_deg_iff :
    binomial_one_step S K T r sigma t = Except.error degenerateMsg ↔
      validType t ∧ ¬ nonposInput S K T sigma ∧
        upFactor sigma T = downFactor sigma T := by
  unfold binomial_one_step validType nonposInput
  by_cases h1 : t ∉ ["call", "put"]
  · simpa [h1] using msgs_distinct.2.1
  · rw [if_neg h1]
    push_neg at h1
    by_cases h2 : S ≤ 0 ∨ K ≤ 0 ∨ T ≤ 0 ∨ sigma ≤ 0
    · simpa [h2, h1] using msgs_distinct.2.2.2.1
    · rw [if_neg h2]
      by_cases h3 : upFactor sigma T = downFactor sigma T
      · simp [h3, h1, h2]
      · rw [if_neg h3]
        by_cases h4 : riskNeutralProb r T sigma < 0 ∨ riskNeutralProb r T sigma > 1
        · simpa [h4, h3] using msgs_distinct.2.2.2.2.2.symm
        · simp [h4, h3]

lemma bos_error_arb_iff :
    binomial_one_step S K T r sigma t = Except.error arbitrageMsg ↔
      validType t ∧ ¬ nonposInput S K T sigma ∧
        upFactor sigma T ≠ downFactor sigma T ∧
        (riskNeutralProb r T sigma < 0 ∨ riskNeutralProb r T sigma > 1) := by
  unfold binomial_one_step validType nonposInput
  by_cases h1 : t ∉ ["call", "put"]
  · simpa [h1] using msgs_distinct.2.2.1
  · rw [if_neg h1]
    push_neg at h1
    by_cases h2 : S ≤ 0 ∨ K ≤ 0 ∨ T ≤ 0 ∨ sigma ≤ 0
    · simpa [h2, h1] using msgs_distinct.2.2.2.2.1
    · rw [if_neg h2]
      by_cases h3 : upFactor sigma T = downFactor sigma T
      · simpa [h3, h2] using msgs_distinct.2.2.2.2.2
      · rw [if_neg h3]
        by_cases h4 : riskNeutralProb r T sigma < 0 ∨ riskNeutralProb r T sigma > 1
        · simp [h4, h3, h1, h2]
        · simp [h4]

lemma bos_ok_iff (v : ℝ) :
    binomial_one_step S K T r sigma t = Except.ok v ↔
      validType t ∧ ¬ nonposInput S K T sigma ∧
        upFactor sigma T ≠ downFactor sigma T ∧
        ¬ (riskNeutralProb r T sigma < 0 ∨ riskNeutralProb r T sigma > 1) ∧
        v = round2 (discountFactor r T *
          (riskNeutralProb r T sigma * payoff t (S * upFactor sigma T) K +
            (1 - riskNeutralProb r T sigma) *
              payoff t (S * downFactor sigma T) K)) := by
  unfold binomial_one_step validType nonposInput
  by_cases h1 : t ∉ ["call", "put"]
  · simp [h1]
  · rw [if_neg h1]
    push_neg at h1
    by_cases h2 : S ≤ 0 ∨ K ≤ 0 ∨ T ≤ 0 ∨ sigma ≤ 0
    · simp [h2]
    · rw [if_neg h2]
      by_cases h3 : upFactor sigma T = downFactor sigma T
      · simp [h3]
      · rw [if_neg h3]
        by_cases h4 : riskNeutralProb r T sigma < 0 ∨ riskNeutralProb r T sigma > 1
        · simp [h4]
        · simp [h4, h1, h2, h3, eq_comm]

end Characterization

section MathHelpers

variable {S K T r sigma : ℝ}

lemma sig_sqrt_pos (hT : 0 < T) (hs : 0 < sigma) : 0 < sigma * Real.sqrt T :=
  mul_pos hs (Real.sqrt_pos.mpr hT)

lemma down_lt_up (hT : 0 < T) (hs : 0 < sigma) :
    downFactor sigma T < upFactor sigma T := by
  have hq := sig_sqrt_pos hT hs
  exact Real.exp_lt_exp.mpr (by linarith)

lemma one_lt_up (hT : 0 < T) (hs : 0 < sigma) : 1 < upFactor sigma T :=
  Real.one_lt_exp_iff.mpr (sig_sqrt_pos hT hs)

lemma down_lt_one (hT : 0 < T) (hs : 0 < sigma) : downFactor sigma T < 1 :=
  Real.exp_lt_one_iff.mpr (by have := sig_sqrt_pos hT hs; linarith)

lemma ud_ne (hT : 0 < T) (hs : 0 < sigma) :
    upFactor sigma T ≠ downFactor sigma T :=
  ne_of_gt (down_lt_up hT hs)

lemma ud_sub_pos (hT : 0 < T) (hs : 0 < sigma) :
    0 < upFactor sigma T - downFactor sigma T :=
  sub_pos.mpr (down_lt_up hT hs)

/-- The arbitrage gate condition, rewritten: `p < 0 ∨ p > 1` holds exactly
when `r*T` leaves the interval `[-sigma*sqrt T, sigma*sqrt T]`. -/
lemma prob_gate_iff (hT : 0 < T) (hs : 0 < sigma) (r : ℝ) :
    (riskNeutralProb r T sigma < 0 ∨ riskNeutralProb r T sigma > 1) ↔
      (r * T < -(sigma * Real.sqrt T) ∨ sigma * Real.sqrt T < r * T) := by
  have hd := ud_sub_pos hT hs
  unfold riskNeutralProb
  rw [div_lt_iff₀ hd, gt_iff_lt, lt_div_iff₀ hd]
  constructor
  · rintro (h | h)
    · left
      rw [zero_mul] at h
      have : Real.exp (r * T) < Real.exp (-(sigma * Real.sqrt T)) := by
        unfold downFactor at h; linarith
      exact Real.exp_lt_exp.mp this
    · right
      rw [one_mul] at h
      have : Real.exp (sigma * Real.sqrt T) < Real.exp (r * T) := by
        unfold upFactor downFactor at h; linarith
      exact Real.exp_lt_exp.mp this
  · rintro (h | h)
    · left
      rw [zero_mul]
      have := Real.exp_lt_exp.mpr h
      unfold downFactor; linarith
    · right
      rw [one_mul]
      have := Real.exp_lt_exp.mpr h
      unfold upFactor downFactor; linarith

/-- With `u ≠ d`, the risk-neutral expectation of the two factors is
`exp(r*T)`: `p*u + (1-p)*d = exp(r*T)`. -/
lemma prob_expectation (hud : upFactor sigma T ≠ downFactor sigma T) (r : ℝ) :
    riskNeutralProb r T sigma * upFactor sigma T +
      (1 - riskNeutralProb r T sigma) * downFactor sigma T =
      Real.exp (r * T) := by
  have h : riskNeutralProb r T sigma * (upFactor sigma T - downFactor sigma T) =
      Real.exp (r * T) - downFactor sigma T :=
    div_mul_cancel₀ _ (sub_ne_zero.mpr hud)
  nlinarith [h]

lemma discount_mul_exp (r T : ℝ) :
    discountFactor r T * Real.exp (r * T) = 1 := by
  unfold discountFactor
  rw [← Real.exp_add, neg_add_cancel, Real.exp_zero]

lemma payoff_call_put_sub (x K : ℝ) :
    payoff "call" x K - payoff "put" x K = x - K := by
  unfold payoff
  rcases le_total K x with h | h
  · rw [if_pos rfl, if_neg (by decide), max_eq_left (by linarith),
      max_eq_right (by linarith)]
    ring
  · rw [if_pos rfl, if_neg (by decide), max_eq_right (by linarith),
      max_eq_left (by linarith)]
    ring

lemma payoff_call (x K : ℝ) : payoff "call" x K = max (x - K) 0 := by
  simp [payoff]

lemma payoff_put (x K : ℝ) : payoff "put" x K = max (K - x) 0 := by
  simp [payoff]

lemma payoff_nonneg (t : String) (x K : ℝ) : 0 ≤ payoff t x K := by
  unfold payoff
  split <;> exact le_max_right _ _

lemma round2_nonneg {x : ℝ} (hx : 0 ≤ x) : 0 ≤ round2 x := by
  unfold round2
  have h : (0 : ℤ) ≤ round (100 * x) := by
    rw [round_eq]
    exact Int.floor_nonneg.mpr (by linarith)
  have h2 : (0 : ℝ) ≤ ((round (100 * x) : ℤ) : ℝ) := by exact_mod_cast h
  positivity

lemma round2_abs_sub (x : ℝ) : |round2 x - x| ≤ 1 / 200 := by
  unfold round2
  have h := abs_sub_round (100 * x)
  rw [abs_sub_comm] at h
  have : ((round (100 * x) : ℤ) : ℝ) / 100 - x =
      ((round (100 * x) : ℤ) - 100 * x) / 100 := by ring
  rw [this, abs_div, abs_of_pos (by norm_num : (0:ℝ) < 100)]
  linarith [h]

end MathHelpers

section ConcreteHelpers

/-- At `r = 0`, `T = 1`, `sigma = 1` the arbitrage gate does not fire. -/
lemma prob_gate_example :
    ¬ (riskNeutralProb 0 1 1 < 0 ∨ riskNeutralProb 0 1 1 > 1) := by
  rw [prob_gate_iff one_pos one_pos]
  norm_num [Real.sqrt_one]

lemma nonpos_example : ¬ nonposInput 1 1 1 1 := by
  unfold nonposInput; norm_num

/-- The (unrounded-then-rounded) call price at
`S = K = T = sigma = 1`, `r = 0`. -/
noncomputable def examplePriceCall : ℝ :=
  round2 (discountFactor 0 1 *
    (riskNeutralProb 0 1 1 * payoff "call" (1 * upFactor 1 1) 1 +
      (1 - riskNeutralProb 0 1 1) * payoff "call" (1 * downFactor 1 1) 1))

/-- The corresponding put price at the same inputs. -/
noncomputable def examplePricePut : ℝ :=
  round2 (discountFactor 0 1 *
    (riskNeutralProb 0 1 1 * payoff "put" (1 * upFactor 1 1) 1 +
      (1 - riskNeutralProb 0 1 1) * payoff "put" (1 * downFactor 1 1) 1))

lemma bos_call_example :
    binomial_one_step 1 1 1 0 1 "call" = Except.ok examplePriceCall := by
  rw [bos_ok_iff]
  exact ⟨by simp [validType], nonpos_example, ud_ne one_pos one_pos,
    prob_gate_example, rfl⟩

lemma bos_put_example :
    binomial_one_step 1 1 1 0 1 "put" = Except.ok examplePricePut := by
  rw [bos_ok_iff]
  exact ⟨by simp [validType], nonpos_example, ud_ne one_pos one_pos,
    prob_gate_example, rfl⟩

end ConcreteHelpers

/-- C1: for every input with positive `S`, `K`, `T`, `sigma` and a valid
option type on which no validation gate fires, the pricer returns
`round(discount * (p*fu + (1-p)*fd), 2)` with `u = exp(sigma*sqrt T)`,
`d = exp(-sigma*sqrt T)`, `Su = S*u`, `Sd = S*d`, call payoffs
`max(S_terminal - K, 0)` and put payoffs `max(K - S_terminal, 0)`,
`p = (exp(r*T) - d)/(u - d)` and `discount = exp(-r*T)`. -/
theorem price_formula_of_valid (S K T r sigma : ℝ) (t : String)
    (ht : validType t) (hS : 0 < S) (hK : 0 < K) (hT : 0 < T) (hs : 0 < sigma)
    (hud : upFactor sigma T ≠ downFactor sigma T)
    (hp : ¬ (riskNeutralProb r T sigma < 0 ∨ riskNeutralProb r T sigma > 1)) :
    binomial_one_step S K T r sigma t =
      Except.ok (round2 (discountFactor r T *
        (riskNeutralProb r T sigma * payoff t (S * upFactor sigma T) K +
          (1 - riskNeutralProb r T sigma) *
            payoff t (S * downFactor sigma T) K))) := by
  rw [bos_ok_iff]
  refine ⟨ht, ?_, hud, hp, rfl⟩
  unfold nonposInput
  push_neg
  exact ⟨hS, hK, hT, hs⟩

/-- Witness for C1 at `S = K = T = sigma = 1`, `r = 0`, type `call`. -/
theorem price_formula_of_valid_witness :
    (validType "call" ∧ (0:ℝ) < 1 ∧
      upFactor 1 1 ≠ downFactor 1 1 ∧
      ¬ (riskNeutralProb 0 1 1 < 0 ∨ riskNeutralProb 0 1 1 > 1)) ∧
    binomial_one_step 1 1 1 0 1 "call" =
      Except.ok (round2 (discountFactor 0 1 *
        (riskNeutralProb 0 1 1 * payoff "call" (1 * upFactor 1 1) 1 +
          (1 - riskNeutralProb 0 1 1) * payoff "call" (1 * downFactor 1 1) 1))) :=
  ⟨⟨by simp [validType], one_pos, ud_ne one_pos one_pos, prob_gate_example⟩,
    price_formula_of_valid 1 1 1 0 1 "call" (by simp [validType])
      one_pos one_pos one_pos one_pos (ud_ne one_pos one_pos) prob_gate_example⟩

/-- C2: the pricer fails with one of the two `InvalidArgument` messages
exactly when the option type is invalid or a numeric input is
non-positive; the option-type check runs first, so a bad option type
always yields the option-type message; and on any such input no result
is produced. -/
theorem invalid_argument_characterization (S K T r sigma : ℝ) (t : String) :
    ((binomial_one_step S K T r sigma t = Except.error invalidTypeMsg ∨
      binomial_one_step S K T r sigma t = Except.error invalidNumMsg) ↔
      (¬ validType t ∨ nonposInput S K T sigma)) ∧
    (¬ validType t →
      binomial_one_step S K T r sigma t = Except.error invalidTypeMsg) ∧
    (∀ v : ℝ, (¬ validType t ∨ nonposInput S K T sigma) →
      binomial_one_step S K T r sigma t ≠ Except.ok v) := by
  refine ⟨?_, fun h => (bos_error_type_iff S K T r sigma t).mpr h, ?_⟩
  · rw [bos_error_type_iff, bos_error_num_iff]
    tauto
  · intro v h hok
    rw [bos_ok_iff] at hok
    tauto

/-- Witness for C2: the invalid option type `straddle` produces the
option-type error message. -/
theorem invalid_argument_characterization_witness :
    binomial_one_step 1 1 1 0 1 "straddle" = Except.error invalidTypeMsg :=
  (invalid_argument_characterization 1 1 1 0 1 "straddle").2.1 (by simp [validType])

/-- C3: whenever the pricer returns a value (no error raised), that value
is non-negative, for any option type. -/
theorem price_nonneg (S K T r sigma : ℝ) (t : String) (v : ℝ)
    (h : binomial_one_step S K T r sigma t = Except.ok v) : 0 ≤ v := by
  rw [bos_ok_iff] at h
  obtain ⟨-, -, -, hp, hv⟩ := h
  push_neg at hp
  subst hv
  have h1 := payoff_nonneg t (S * upFactor sigma T) K
  have h2 := payoff_nonneg t (S * downFactor sigma T) K
  have hd : (0:ℝ) < discountFactor r T := Real.exp_pos _
  have hsum : 0 ≤ riskNeutralProb r T sigma * payoff t (S * upFactor sigma T) K +
      (1 - riskNeutralProb r T sigma) * payoff t (S * downFactor sigma T) K :=
    add_nonneg (mul_nonneg hp.1 h1) (mul_nonneg (by linarith [hp.2]) h2)
  exact round2_nonneg (mul_nonneg hd.le hsum)

/-- Witness for C3 at `S = K = T = sigma = 1`, `r = 0`, type `call`. -/
theorem price_nonneg_witness :
    binomial_one_step 1 1 1 0 1 "call" = Except.ok examplePriceCall ∧
      0 ≤ examplePriceCall :=
  ⟨bos_call_example, price_nonneg 1 1 1 0 1 "call" _ bos_call_example⟩

/-- Exact put-call parity of the unrounded expectations: the difference
between the unrounded call and put expectations is `S - K * exp(-r*T)`. -/
lemma unrounded_parity {T sigma : ℝ} (S K r : ℝ)
    (hud : upFactor sigma T ≠ downFactor sigma T) :
    discountFactor r T *
        (riskNeutralProb r T sigma * payoff "call" (S * upFactor sigma T) K +
          (1 - riskNeutralProb r T sigma) *
            payoff "call" (S * downFactor sigma T) K) -
      discountFactor r T *
        (riskNeutralProb r T sigma * payoff "put" (S * upFactor sigma T) K +
          (1 - riskNeutralProb r T sigma) *
            payoff "put" (S * downFactor sigma T) K) =
      S - K * discountFactor r T := by
  have e1 := payoff_call_put_sub (S * upFactor sigma T) K
  have e2 := payoff_call_put_sub (S * downFactor sigma T) K
  have e3 := prob_expectation hud r
  have e4 := discount_mul_exp r T
  calc discountFactor r T *
          (riskNeutralProb r T sigma * payoff "call" (S * upFactor sigma T) K +
            (1 - riskNeutralProb r T sigma) *
              payoff "call" (S * downFactor sigma T) K) -
        discountFactor r T *
          (riskNeutralProb r T sigma * payoff "put" (S * upFactor sigma T) K +
            (1 - riskNeutralProb r T sigma) *
              payoff "put" (S * downFactor sigma T) K)
      = discountFactor r T * (riskNeutralProb r T sigma *
          (payoff "call" (S * upFactor sigma T) K -
            payoff "put" (S * upFactor sigma T) K) +
          (1 - riskNeutralProb r T sigma) *
            (payoff "call" (S * downFactor sigma T) K -
              payoff "put" (S * downFactor sigma T) K)) := by ring
    _ = discountFactor r T * (riskNeutralProb r T sigma *
          (S * upFactor sigma T - K) +
          (1 - riskNeutralProb r T sigma) * (S * downFactor sigma T - K)) := by
        rw [e1, e2]
    _ = S * (discountFactor r T *
          (riskNeutralProb r T sigma * upFactor sigma T +
            (1 - riskNeutralProb r T sigma) * downFactor sigma T)) -
          K * discountFactor r T := by ring
    _ = S * (discountFactor r T * Real.exp (r * T)) -
          K * discountFactor r T := by rw [e3]
    _ = S - K * discountFactor r T := by rw [e4]; ring

/-- C4: on any input where both the call and the put price succeed,
put-call parity holds up to the two roundings:
`|call - put - (S - K*exp(-r*T))| ≤ 0.01`. -/
theorem put_call_parity (S K T r sigma : ℝ) (c p : ℝ)
    (hc : binomial_one_step S K T r sigma "call" = Except.ok c)
    (hp : binomial_one_step S K T r sigma "put" = Except.ok p) :
    |c - p - (S - K * discountFactor r T)| ≤ 1 / 100 := by
  rw [bos_ok_iff] at hc hp
  obtain ⟨-, -, hud, -, hcv⟩ := hc
  obtain ⟨-, -, -, -, hpv⟩ := hp
  subst hcv
  subst hpv
  have key := unrounded_parity S K r hud
  have b1 := round2_abs_sub (discountFactor r T *
    (riskNeutralProb r T sigma * payoff "call" (S * upFactor sigma T) K +
      (1 - riskNeutralProb r T sigma) * payoff "call" (S * downFactor sigma T) K))
  have b2 := round2_abs_sub (discountFactor r T *
    (riskNeutralProb r T sigma * payoff "put" (S * upFactor sigma T) K +
      (1 - riskNeutralProb r T sigma) * payoff "put" (S * downFactor sigma T) K))
  rw [abs_le] at b1 b2 ⊢
  constructor <;> linarith [b1.1, b1.2, b2.1, b2.2]

/-- Witness for C4 at `S = K = T = sigma = 1`, `r = 0`. -/
theorem put_call_parity_witness :
    binomial_one_step 1 1 1 0 1 "call" = Except.ok examplePriceCall ∧
    binomial_one_step 1 1 1 0 1 "put" = Except.ok examplePricePut ∧
    |examplePriceCall - examplePricePut - (1 - 1 * discountFactor 0 1)| ≤ 1 / 100 :=
  ⟨bos_call_example, bos_put_example,
    put_call_parity 1 1 1 0 1 _ _ bos_call_example bos_put_example⟩

/-- C5: on inputs that pass the option-type, positivity and degeneracy
gates, the pricer fails with the arbitrage message exactly when the
risk-neutral probability `p = (exp(r*T) - d)/(u - d)` is `< 0` or `> 1`
(and then no result is produced). -/
theorem arbitrage_error_iff (S K T r sigma : ℝ) (t : String)
    (ht : validType t) (hS : 0 < S) (hK : 0 < K) (hT : 0 < T) (hs : 0 < sigma)
    (hud : upFactor sigma T ≠ downFactor sigma T) :
    binomial_one_step S K T r sigma t = Except.error arbitrageMsg ↔
      (riskNeutralProb r T sigma < 0 ∨ riskNeutralProb r T sigma > 1) := by
  rw [bos_error_arb_iff]
  have hn : ¬ nonposInput S K T sigma := by
    unfold nonposInput; push_neg; exact ⟨hS, hK, hT, hs⟩
  tauto

/-- Witness for C5 at `S = K = T = sigma = 1`, `r = 0`, type `call`. -/
theorem arbitrage_error_iff_witness :
    (validType "call" ∧ (0:ℝ) < 1 ∧ upFactor 1 1 ≠ downFactor 1 1) ∧
    (binomial_one_step 1 1 1 0 1 "call" = Except.error arbitrageMsg ↔
      (riskNeutralProb 0 1 1 < 0 ∨ riskNeutralProb 0 1 1 > 1)) :=
  ⟨⟨by simp [validType], one_pos, ud_ne one_pos one_pos⟩,
    arbitrage_error_iff 1 1 1 0 1 "call" (by simp [validType])
      one_pos one_pos one_pos one_pos (ud_ne one_pos one_pos)⟩

/-- C6: the pricer's failures fall into three distinguishable categories:
the two `InvalidArgument` messages, the `DegenerateModel` message and the
`ArbitrageViolation` message are pairwise distinct strings, and each is
raised exactly under its condition (bad type or non-positive input;
`u = d` after the argument checks; `p` outside `[0,1]` after the
degeneracy check), so the raised error identifies the condition. -/
theorem error_taxonomy (S K T r sigma : ℝ) (t : String) :
    (invalidTypeMsg ≠ degenerateMsg ∧ invalidTypeMsg ≠ arbitrageMsg ∧
      invalidNumMsg ≠ degenerateMsg ∧ invalidNumMsg ≠ arbitrageMsg ∧
      degenerateMsg ≠ arbitrageMsg ∧ invalidTypeMsg ≠ invalidNumMsg) ∧
    ((binomial_one_step S K T r sigma t = Except.error invalidTypeMsg ∨
      binomial_one_step S K T r sigma t = Except.error invalidNumMsg) ↔
      (¬ validType t ∨ nonposInput S K T sigma)) ∧
    (binomial_one_step S K T r sigma t = Except.error degenerateMsg ↔
      (validType t ∧ ¬ nonposInput S K T sigma ∧
        upFactor sigma T = downFactor sigma T)) ∧
    (binomial_one_step S K T r sigma t = Except.error arbitrageMsg ↔
      (validType t ∧ ¬ nonposInput S K T sigma ∧
        upFactor sigma T ≠ downFactor sigma T ∧
        (riskNeutralProb r T sigma < 0 ∨ riskNeutralProb r T sigma > 1))) := by
  refine ⟨⟨msgs_distinct.2.1, msgs_distinct.2.2.1, msgs_distinct.2.2.2.1,
      msgs_distinct.2.2.2.2.1, msgs_distinct.2.2.2.2.2, msgs_distinct.1⟩,
    ?_, bos_error_deg_iff S K T r sigma t, bos_error_arb_iff S K T r sigma t⟩
  rw [bos_error_type_iff, bos_error_num_iff]
  tauto

/-- A deep in-the-money example: at `S = 10`, `K = 1`, `T = sigma = 1`
both terminal prices exceed the strike. -/
lemma itm_example : (1:ℝ) ≤ 10 * downFactor 1 1 := by
  unfold downFactor
  rw [one_mul, Real.sqrt_one, Real.exp_neg]
  have h10 : Real.exp 1 ≤ 10 := le_trans Real.exp_one_lt_d9.le (by norm_num)
  have hpos := Real.exp_pos 1
  have hi : 0 < (Real.exp 1)⁻¹ := inv_pos.mpr hpos
  nlinarith [mul_nonneg (sub_nonneg.mpr h10) hi.le,
    mul_inv_cancel₀ (ne_of_gt hpos)]

/-- C7: for a call on valid inputs that pass the arbitrage gate, if both
terminal prices are at or above the strike (`K ≤ S*d`) the price is
`round(S - K*exp(-r*T), 2)`, and if both are at or below the strike
(`S*u ≤ K`) the price is `0`. -/
theorem deep_call_price (S K T r sigma : ℝ)
    (hS : 0 < S) (hK : 0 < K) (hT : 0 < T) (hs : 0 < sigma)
    (hp : ¬ (riskNeutralProb r T sigma < 0 ∨ riskNeutralProb r T sigma > 1)) :
    (K ≤ S * downFactor sigma T →
      binomial_one_step S K T r sigma "call" =
        Except.ok (round2 (S - K * discountFactor r T))) ∧
    (S * upFactor sigma T ≤ K →
      binomial_one_step S K T r sigma "call" = Except.ok 0) := by
  have hud := ud_ne hT hs
  have hdu : S * downFactor sigma T ≤ S * upFactor sigma T :=
    mul_le_mul_of_nonneg_left (down_lt_up hT hs).le hS.le
  have hn : ¬ nonposInput S K T sigma := by
    unfold nonposInput; push_neg; exact ⟨hS, hK, hT, hs⟩
  have hv : validType "call" := by simp [validType]
  constructor
  · intro hitm
    rw [bos_ok_iff]
    refine ⟨hv, hn, hud, hp, ?_⟩
    have hSu : K ≤ S * upFactor sigma T := le_trans hitm hdu
    have e3 := prob_expectation hud r
    have e4 := discount_mul_exp r T
    congr 1
    rw [payoff_call, payoff_call,
      max_eq_left (by linarith : (0:ℝ) ≤ S * upFactor sigma T - K),
      max_eq_left (by linarith : (0:ℝ) ≤ S * downFactor sigma T - K)]
    linear_combination (-(S * discountFactor r T)) * e3 - S * e4
  · intro hotm
    rw [bos_ok_iff]
    refine ⟨hv, hn, hud, hp, ?_⟩
    have hSd : S * downFactor sigma T ≤ K := le_trans hdu hotm
    rw [payoff_call, payoff_call,
      max_eq_right (by linarith : S * upFactor sigma T - K ≤ 0),
      max_eq_right (by linarith : S * downFactor sigma T - K ≤ 0)]
    simp [round2]

/-- Witness for C7 (in-the-money branch) at
`S = 10`, `K = 1`, `T = 1`, `r = 0`, `sigma = 1`. -/
theorem deep_call_price_witness :
    ((0:ℝ) < 10 ∧ (0:ℝ) < 1 ∧
      ¬ (riskNeutralProb 0 1 1 < 0 ∨ riskNeutralProb 0 1 1 > 1) ∧
      (1:ℝ) ≤ 10 * downFactor 1 1) ∧
    binomial_one_step 10 1 1 0 1 "call" =
      Except.ok (round2 (10 - 1 * discountFactor 0 1)) :=
  ⟨⟨by norm_num, one_pos, prob_gate_example, itm_example⟩,
    (deep_call_price 10 1 1 0 1 (by norm_num) one_pos one_pos one_pos
      prob_gate_example).1 itm_example⟩

/-- C8: with `T > 0` and `sigma > 0` in exact real arithmetic,
`u > 1 > d`, hence `u ≠ d`, and the pricer never raises the degenerate
error for such `T` and `sigma`, regardless of the other inputs. -/
theorem degenerate_unreachable (T sigma : ℝ) (hT : 0 < T) (hs : 0 < sigma) :
    1 < upFactor sigma T ∧ downFactor sigma T < 1 ∧
      upFactor sigma T ≠ downFactor sigma T ∧
      ∀ (S K r : ℝ) (t : String),
        binomial_one_step S K T r sigma t ≠ Except.error degenerateMsg := by
  refine ⟨one_lt_up hT hs, down_lt_one hT hs, ud_ne hT hs, ?_⟩
  intro S K r t h
  rw [bos_error_deg_iff] at h
  exact ud_ne hT hs h.2.2

/-- Witness for C8 at `T = sigma = 1`. -/
theorem degenerate_unreachable_witness :
    ((0:ℝ) < 1 ∧ (0:ℝ) < 1) ∧
    (1 < upFactor 1 1 ∧ downFactor 1 1 < 1 ∧ upFactor 1 1 ≠ downFactor 1 1 ∧
      ∀ (S K r : ℝ) (t : String),
        binomial_one_step S K 1 r 1 t ≠ Except.error degenerateMsg) :=
  ⟨⟨one_pos, one_pos⟩, degenerate_unreachable 1 1 one_pos one_pos⟩

/-- C9: on inputs that pass the earlier gates, the arbitrage error is
raised exactly when `r*T` lies strictly outside
`[-sigma*sqrt T, sigma*sqrt T]`; in particular it is unreachable
whenever `r*T` stays inside that interval (e.g. `r = 0`). -/
theorem arbitrage_region_iff (S K T r sigma : ℝ) (t : String)
    (ht : validType t) (hS : 0 < S) (hK : 0 < K) (hT : 0 < T)
    (hs : 0 < sigma) :
    binomial_one_step S K T r sigma t = Except.error arbitrageMsg ↔
      (r * T < -(sigma * Real.sqrt T) ∨ sigma * Real.sqrt T < r * T) := by
  rw [bos_error_arb_iff, ← prob_gate_iff hT hs r]
  have hn : ¬ nonposInput S K T sigma := by
    unfold nonposInput; push_neg; exact ⟨hS, hK, hT, hs⟩
  have hud := ud_ne hT hs
  tauto

/-- Witness for C9 at `S = K = T = sigma = 1`, `r = 0`, type `put`. -/
theorem arbitrage_region_iff_witness :
    (validType "put" ∧ (0:ℝ) < 1) ∧
    (binomial_one_step 1 1 1 0 1 "put" = Except.error arbitrageMsg ↔
      ((0:ℝ) * 1 < -(1 * Real.sqrt 1) ∨ (1:ℝ) * Real.sqrt 1 < 0 * 1)) :=
  ⟨⟨by simp [validType], one_pos⟩,
    arbitrage_region_iff 1 1 1 0 1 "put" (by simp [validType])
      one_pos one_pos one_pos one_pos⟩

/-- C10: the option type defaults to `call`: calling the pricer with the
option type omitted gives the same result as passing `call` explicitly. -/
theorem default_option_type (S K T r sigma : ℝ) :
    binomial_one_step_default S K T r sigma =
      binomial_one_step S K T r sigma "call" := rfl
